import Mathlib

/-!
Shallow embedding of the Web_pdf_scraper pipeline (webtext.py and
webscraper_api.py).  Python strings are modelled as `List Char`; machine
integers do not occur.  The rendering engine, the filesystem and the network
are modelled as explicit oracle inputs, so every worker path of the source is
a branch of a total Lean function.
-/

namespace WebPdfScraper

/-! ## String primitives

Python's string comparison is lexicographic by code point; `lexLe` is that
order on `List Char`, used to model `sorted(...)` on URL strings. -/

def lexLe : List Char → List Char → Bool
  | [], _ => true
  | _ :: _, [] => false
  | a :: as, b :: bs =>
    if a.toNat < b.toNat then true
    else if b.toNat < a.toNat then false
    else lexLe as bs

def urlLe (a b : List Char) : Prop := lexLe a b = true

instance : DecidableRel urlLe := fun a b => decidable_of_iff (lexLe a b = true) Iff.rfl

/-! ## clean_url (webtext.py lines 50-51)

`u.split("?")[0]` is the longest prefix before the first question mark and
`rstrip("/")` removes every trailing slash. -/

def stripQuery (s : List Char) : List Char := s.takeWhile (fun c => c != '?')

def rstripSlash (s : List Char) : List Char :=
  (s.reverse.dropWhile (fun c => c == '/')).reverse

def clean_url (u : List Char) : List Char := rstripSlash (stripQuery u)

/-! ## urlparse(...).netloc (urllib.parse model)

`urlparse` strips a leading `scheme:` when the candidate scheme starts with a
letter and contains only letters, digits, `+`, `-`, `.`; the netloc is then
the run after a leading `//` up to the next `/`, `?` or `#`, and is empty when
no `//` follows. -/

def isSchemeChar (c : Char) : Bool := c.isAlphanum || c == '+' || c == '-' || c == '.'

def validScheme (pre : List Char) : Bool :=
  match pre with
  | [] => false
  | c :: cs => c.isAlpha && cs.all isSchemeChar

def splitScheme (s : List Char) : List Char :=
  let pre := s.takeWhile (fun c => c != ':')
  match s.drop pre.length with
  | [] => s
  | _ :: rest => if validScheme pre then rest else s

def netloc (s : List Char) : List Char :=
  match splitScheme s with
  | '/' :: '/' :: r => r.takeWhile (fun c => c != '/' && c != '?' && c != '#')
  | _ => []

/-! ## Domain filters (webtext.py lines 37-58) -/

def BLOCKED_DOMAINS : List (List Char) :=
  ["facebook.com".data, "instagram.com".data, "twitter.com".data, "x.com".data,
   "linkedin.com".data, "youtube.com".data, "wa.me".data, "t.me".data]

def same_domain (baseDomain : List Char) (u : List Char) : Bool :=
  netloc u == baseDomain

def is_blocked_domain (u : List Char) : Bool :=
  let domain := (netloc u).map Char.toLower
  BLOCKED_DOMAINS.any (fun b => decide (List.IsInfix b domain))

/-! ## Link-collection loop (webtext.py lines 76-93)

Each candidate (already resolved by `urljoin`) is cleaned, then the loop
continues on the first failing test, in source order: the http check, the
same-domain check, the blocked-domain check.  Survivors go into a set that is
finally sorted. -/

inductive Disposition
  | nonHttp
  | offDomain
  | blocked
  | kept
deriving DecidableEq

def classify (baseDomain : List Char) (u : List Char) : Disposition :=
  if ¬ ("http".data.isPrefixOf u) then .nonHttp
  else if ¬ (same_domain baseDomain u) then .offDomain
  else if is_blocked_domain u then .blocked
  else .kept

def keepLink (baseDomain : List Char) (u : List Char) : Bool :=
  decide (classify baseDomain u = .kept)

def collectLinks (baseDomain : List Char) (urls : List (List Char)) : List (List Char) :=
  ((((urls.map clean_url).filter (keepLink baseDomain)).dedup).insertionSort urlLe)

/-- `enumerate(links)` with `i + 1` (webtext.py lines 183-186): the URL at
0-based position `i` of the sorted list is submitted with index `i + 1`. -/
def assignIndices (l : List (List Char)) : List (Nat × List Char) :=
  l.enum.map (fun p => (p.1 + 1, p.2))

/-! ## Infinite-scroll stabilization loop (webtext.py lines 142-150)

`h j` is the `document.body.scrollHeight` measurement taken after `j` scroll
iterations (`h 0` is the initial measurement).  One loop iteration scrolls,
measures `h (i + 1)` and compares it with the previous measurement `h i`;
`some k` means the loop exited after iteration `k`.  `fuel` bounds the
unrolling of the source's unbounded `while True`. -/

def scrollLoop (h : Nat → Int) : Nat → Nat → Option Nat
  | 0, _ => none
  | fuel + 1, i => if h (i + 1) = h i then some (i + 1) else scrollLoop h fuel (i + 1)

/-! ## Render results and the merge step -/

/-- One worker's outcome as seen by the collector loop: the index it was
submitted with and whether it returned a path (`page_<index>.pdf`, so the path
is determined by the index). -/
structure RenderResult where
  index : Nat
  success : Bool
deriving DecidableEq

/-- The `pdf_files` list: indices of the results that returned a path, in the
order the collector saw them. -/
def pdfFiles (results : List RenderResult) : List Nat :=
  (results.filter (fun r => r.success)).map (fun r => r.index)

/-- `pdf_files.sort(key=<index parsed from filename>)` (webtext.py line 198):
the merge consumes the successful indices in ascending order. -/
def mergedOrder (results : List RenderResult) : List Nat :=
  (pdfFiles results).insertionSort (fun a b => a ≤ b)

/-- webtext.py lines 201-205: each PDF is appended under its own
`try`/`except`, so an unreadable one is skipped and the loop continues.
`acc` is the writer's page-source list so far. -/
def mergeLoop (readable : Nat → Bool) : List Nat → List Nat → List Nat
  | [], acc => acc
  | p :: rest, acc =>
    if readable p then mergeLoop readable rest (acc ++ [p])
    else mergeLoop readable rest acc

/-- webscraper_api.py lines 154-170: one `try` wraps the whole append loop,
so the first unreadable PDF raises out of the loop and no artifact is
written (`none`). -/
def mergeApiGo (readable : Nat → Bool) : List Nat → List Nat → Option (List Nat)
  | [], acc => some acc
  | p :: rest, acc =>
    if readable p then mergeApiGo readable rest (acc ++ [p])
    else none

def mergeApi (readable : Nat → Bool) (pdfs : List Nat) : Option (List Nat) :=
  mergeApiGo readable pdfs []

/-! ## Run tail of webtext.py (lines 194-215)

After the pool joins: empty `pdf_files` hits `exit(1)` at line 196, which
terminates the process before the merge at lines 198-209 and before the
`shutil.rmtree` at line 214; otherwise the merge runs, `merged.pdf` is
written and the working directory is removed. -/

structure RunOutcome where
  exitCode : Nat
  artifact : Option (List Nat)
  workdirDeleted : Bool
deriving DecidableEq

def finalizeRun (readable : Nat → Bool) (results : List RenderResult) : RunOutcome :=
  let files := pdfFiles results
  if files.isEmpty then { exitCode := 1, artifact := none, workdirDeleted := false }
  else
    { exitCode := 0,
      artifact := some (mergeLoop readable (files.insertionSort (fun a b => a ≤ b)) []),
      workdirDeleted := true }

/-! ## Render workers

The engine, the page and the filesystem are an oracle `Engine`; each flag
tells whether the corresponding blocking call succeeds, `heights` is the
scroll-height sequence and `export` is the base64-decoded byte payload
returned by `Page.printToPDF` (`none` when the CDP call raises). -/

structure Engine where
  createOk : Bool
  navOk : Bool
  currentUrlBlocked : Bool
  readyOk : Bool
  scriptOk : Bool
  heights : Nat → Int
  exportPayload : Option (List Nat)
  writeOk : Bool

/-- Observable state when a worker invocation exits: the value returned to
the pool (`some index` stands for the `page_<index>.pdf` path, `none` for
Python `None`), whether the engine session is still live, the content of the
index-keyed file (if one was written), and whether the invocation exited by
raising past the worker boundary. -/
structure WorkerExit where
  result : Option Nat
  sessionLive : Bool
  written : Option (List Nat)
  raised : Bool
deriving DecidableEq

/-- webscraper_api.py `process_page` (lines 75-137).  Branches, in source
order: `webdriver.Chrome` raising is caught by the outer `except` (no session
was created); `driver.get` raising is caught by the outer `except`, which
returns `None` WITHOUT calling `driver.quit()`; the readiness wait and the
scroll script are guarded by an inner `try` that quits and returns `None`;
the CDP export and the decode-and-write step each quit and return `None` on
failure; finally the verify step (`os.path.exists` and `os.path.getsize > 0`)
quits and returns the path on a non-empty file, or `None` on an empty one. -/
def process_page (e : Engine) (index : Nat) : WorkerExit :=
  if ¬ e.createOk then { result := none, sessionLive := false, written := none, raised := false }
  else if ¬ e.navOk then { result := none, sessionLive := true, written := none, raised := false }
  else if ¬ e.readyOk then { result := none, sessionLive := false, written := none, raised := false }
  else if ¬ e.scriptOk then { result := none, sessionLive := false, written := none, raised := false }
  else
    match e.exportPayload with
    | none => { result := none, sessionLive := false, written := none, raised := false }
    | some payload =>
      if ¬ e.writeOk then { result := none, sessionLive := false, written := none, raised := false }
      else if 0 < payload.length then
        { result := some index, sessionLive := false, written := some payload, raised := false }
      else
        { result := none, sessionLive := false, written := some payload, raised := false }

/-- webtext.py `save_page_as_pdf` (lines 106-177).  `webdriver.Chrome` is
created before the `try`, so its failure raises past the worker (no session
exists, hence none is live); every other failure is caught by the single
`except` and the `finally: driver.quit()` tears the session down on every
path out of the `try`.  The blocked-domain redirect check returns `None`;
the scroll loop runs until two consecutive height measurements agree — when
it has not converged within `fuel` iterations the invocation is still
running, modelled as `none`.  The decoded payload is written and the path
returned with NO verify step. -/
def save_page_as_pdf (e : Engine) (fuel : Nat) (index : Nat) : Option WorkerExit :=
  if ¬ e.createOk then
    some { result := none, sessionLive := false, written := none, raised := true }
  else if ¬ e.navOk then
    some { result := none, sessionLive := false, written := none, raised := false }
  else if e.currentUrlBlocked then
    some { result := none, sessionLive := false, written := none, raised := false }
  else if ¬ e.readyOk then
    some { result := none, sessionLive := false, written := none, raised := false }
  else if ¬ e.scriptOk then
    some { result := none, sessionLive := false, written := none, raised := false }
  else
    match scrollLoop e.heights fuel 0 with
    | none => none
    | some _ =>
      match e.exportPayload with
      | none => some { result := none, sessionLive := false, written := none, raised := false }
      | some payload =>
        if ¬ e.writeOk then
          some { result := none, sessionLive := false, written := none, raised := false }
        else
          some { result := some index, sessionLive := false, written := some payload,
                 raised := false }

/-! ## Worker pool (webtext.py lines 180-191, webscraper_api.py 139-147)

`ThreadPoolExecutor(max_workers=k)` raises
`ValueError("max_workers must be greater than 0")` in its constructor when
`k <= 0`, before any task is submitted; otherwise every target is submitted
with its 1-based index and the caller joins on all futures. -/

def runAll (k : Int) (targets : List (List Char)) (render : Nat → List Char → Option Nat) :
    Except String (List (Nat × Option Nat)) :=
  if k ≤ 0 then Except.error "max_workers must be greater than 0"
  else Except.ok (targets.enum.map (fun p => (p.1 + 1, render (p.1 + 1) p.2)))

/-! ## Order facts about `lexLe` -/

theorem lexLe_total (a b : List Char) : urlLe a b ∨ urlLe b a := by
  unfold urlLe
  induction a generalizing b with
  | nil => left; rfl
  | cons x xs ih =>
    cases b with
    | nil => right; rfl
    | cons y ys =>
      by_cases h1 : x.toNat < y.toNat
      · left; simp [lexLe, h1]
      · by_cases h2 : y.toNat < x.toNat
        · right; simp [lexLe, h1, h2]
        · rcases ih ys with h | h
          · left; simp only [lexLe, if_neg h1, if_neg h2]; exact h
          · right; simp only [lexLe, if_neg h1, if_neg h2]; exact h

theorem lexLe_trans (a b c : List Char) (hab : urlLe a b) (hbc : urlLe b c) : urlLe a c := by
  unfold urlLe at hab hbc ⊢
  induction a generalizing b c with
  | nil => rfl
  | cons x xs ih =>
    cases b with
    | nil => simp [lexLe] at hab
    | cons y ys =>
      cases c with
      | nil => simp [lexLe] at hbc
      | cons z zs =>
        simp only [lexLe] at hab hbc ⊢
        split at hab
        · rename_i h1
          split at hbc
          · rename_i h2
            rw [if_pos (by omega)]
          · split at hbc
            · simp at hbc
            · rename_i h2 h3
              rw [if_pos (by omega)]
        · split at hab
          · simp at hab
          · rename_i h1 h2
            split at hbc
            · rename_i h3
              rw [if_pos (by omega)]
            · split at hbc
              · simp at hbc
              · rename_i h3 h4
                rw [if_neg (by omega), if_neg (by omega)]
                exact ih ys zs hab hbc

theorem lexLe_antisymm (a b : List Char) (hab : urlLe a b) (hba : urlLe b a) : a = b := by
  unfold urlLe at hab hba
  induction a generalizing b with
  | nil =>
    cases b with
    | nil => rfl
    | cons y ys => simp [lexLe] at hba
  | cons x xs ih =>
    cases b with
    | nil => simp [lexLe] at hab
    | cons y ys =>
      simp only [lexLe] at hab hba
      split at hab
      · rename_i h1
        rw [if_neg (by omega), if_pos (by omega)] at hba
        simp at hba
      · split at hab
        · simp at hab
        · rename_i h1 h2
          rw [if_neg (by omega), if_neg (by omega)] at hba
          have hxy : x = y := by
            apply Char.ext
            apply UInt32.ext
            simp only [Char.toNat] at h1 h2
            omega
          rw [hxy, ih ys hab hba]

instance : IsTotal (List Char) urlLe := ⟨lexLe_total⟩

instance : IsTrans (List Char) urlLe := ⟨lexLe_trans⟩

instance : IsAntisymm (List Char) urlLe := ⟨lexLe_antisymm⟩

/-! ## Helper lemmas about `clean_url` -/

theorem mem_stripQuery {a : Char} {s : List Char} (h : a ∈ stripQuery s) : (a != '?') = true :=
  List.mem_takeWhile_imp (p := fun c => c != '?') h

theorem stripQuery_eq_self {s : List Char} (h : ∀ a ∈ s, (a != '?') = true) :
    stripQuery s = s :=
  List.takeWhile_eq_self_iff.mpr h

theorem mem_rstripSlash {a : Char} {s : List Char} (h : a ∈ rstripSlash s) : a ∈ s := by
  unfold rstripSlash at h
  rw [List.mem_reverse] at h
  have := (List.dropWhile_sublist (fun c => c == '/')).subset h
  rwa [List.mem_reverse] at this

theorem rstripSlash_idem (s : List Char) : rstripSlash (rstripSlash s) = rstripSlash s := by
  unfold rstripSlash
  rw [List.reverse_reverse, List.dropWhile_idempotent]

/-- C10: URL normalization is idempotent — `clean_url(clean_url(u)) = clean_url(u)`
for every string `u`, so deduplication by normalized string is stable. -/
theorem clean_url_idempotent (u : List Char) : clean_url (clean_url u) = clean_url u := by
  unfold clean_url
  have hq : stripQuery (rstripSlash (stripQuery u)) = rstripSlash (stripQuery u) := by
    apply stripQuery_eq_self
    intro a ha
    exact mem_stripQuery (mem_rstripSlash ha)
  rw [hq, rstripSlash_idem]

/-! ## The stabilization loop (C6) -/

theorem scrollLoop_reaches (h : Nat → Int) (N : Nat)
    (hmin : ∀ j, j < N → h (j + 1) ≠ h j) (heq : h (N + 1) = h N) :
    ∀ d i, i + d = N → scrollLoop h (d + 1) i = some (N + 1) := by
  intro d
  induction d with
  | zero =>
    intro i hi
    have : i = N := by omega
    subst this
    simp [scrollLoop, heq]
  | succ d ih =>
    intro i hi
    have hne : h (i + 1) ≠ h i := hmin i (by omega)
    simp only [scrollLoop, if_neg hne]
    exact ih (i + 1) (by omega)

/-- C6: whenever the height sequence has two consecutive equal measurements,
the scroll-and-measure loop terminates (for sufficient fuel), and it exits
exactly at the first iteration `k` whose fresh measurement `h k` equals the
previous measurement `h (k - 1)`. -/
theorem scrollLoop_terminates_at_first_repeat (h : Nat → Int)
    (hconv : ∃ n, h (n + 1) = h n) :
    ∃ fuel k, scrollLoop h fuel 0 = some k ∧ 0 < k ∧ h k = h (k - 1) ∧
      ∀ j, 0 < j → j < k → h j ≠ h (j - 1) := by
  classical
  let N := Nat.find hconv
  have heq : h (N + 1) = h N := Nat.find_spec hconv
  have hmin : ∀ j, j < N → h (j + 1) ≠ h j := fun j hj => Nat.find_min hconv hj
  refine ⟨N + 1, N + 1, ?_, by omega, by simpa using heq, ?_⟩
  · exact scrollLoop_reaches h N hmin heq N 0 (by omega)
  · intro j hj hjk
    have hj' : j - 1 < N := by omega
    have := hmin (j - 1) hj'
    have hjeq : j - 1 + 1 = j := by omega
    rwa [hjeq] at this

/-- C6 witness: a constant height sequence converges immediately and the loop
exits at iteration 1. -/
theorem scrollLoop_terminates_witness :
    ∃ fuel k, scrollLoop (fun _ => (0 : Int)) fuel 0 = some k ∧ 0 < k ∧
      (fun _ => (0 : Int)) k = (fun _ => (0 : Int)) (k - 1) ∧
      ∀ j, 0 < j → j < k → (fun _ => (0 : Int)) j ≠ (fun _ => (0 : Int)) (j - 1) :=
  scrollLoop_terminates_at_first_repeat (fun _ => (0 : Int)) ⟨0, rfl⟩

/-! ## Merge order (C1) -/

theorem pdfFiles_mem (results : List RenderResult) (i : Nat) :
    i ∈ pdfFiles results ↔ ∃ r ∈ results, r.index = i ∧ r.success = true := by
  simp only [pdfFiles, List.mem_map, List.mem_filter]
  tauto

/-- C1: the merged artifact consists of exactly the successful documents in
strictly increasing index order, for every completion order (modelled as an
arbitrary permutation `results'` of the result set): the merge output is
unchanged under permutation, sorted strictly by index, and contains an index
iff some successful result carries it. -/
theorem merged_order_independent_of_completion (results results' : List RenderResult)
    (hperm : List.Perm results' results) (hnodup : (pdfFiles results).Nodup) :
    mergedOrder results' = mergedOrder results
    ∧ List.Sorted (· < ·) (mergedOrder results)
    ∧ ∀ i : Nat, i ∈ mergedOrder results' ↔ ∃ r ∈ results, r.index = i ∧ r.success = true := by
  have hp : List.Perm (pdfFiles results') (pdfFiles results) := by
    unfold pdfFiles
    exact List.Perm.map _ (List.Perm.filter _ hperm)
  have hsort : mergedOrder results' = mergedOrder results := by
    apply List.eq_of_perm_of_sorted (r := fun a b : Nat => a ≤ b)
    · exact (List.perm_insertionSort _ _).trans (hp.trans (List.perm_insertionSort _ _).symm)
    · exact List.sorted_insertionSort _ _
    · exact List.sorted_insertionSort _ _
  refine ⟨hsort, ?_, ?_⟩
  · have hnd : (mergedOrder results).Nodup :=
      ((List.perm_insertionSort _ (pdfFiles results)).nodup_iff).mpr hnodup
    exact List.Sorted.lt_of_le (List.sorted_insertionSort _ _) hnd
  · intro i
    rw [hsort, mergedOrder, (List.perm_insertionSort _ (pdfFiles results)).mem_iff]
    exact pdfFiles_mem results i

/-- C1 witness: three results completing in reverse-index order still merge
as index 1 then 3. -/
theorem merged_order_witness :
    mergedOrder ([⟨1, true⟩, ⟨2, false⟩, ⟨3, true⟩] : List RenderResult).reverse
        = mergedOrder ([⟨1, true⟩, ⟨2, false⟩, ⟨3, true⟩] : List RenderResult)
    ∧ List.Sorted (· < ·) (mergedOrder ([⟨1, true⟩, ⟨2, false⟩, ⟨3, true⟩] : List RenderResult))
    ∧ ∀ i : Nat,
        i ∈ mergedOrder ([⟨1, true⟩, ⟨2, false⟩, ⟨3, true⟩] : List RenderResult).reverse
        ↔ ∃ r ∈ ([⟨1, true⟩, ⟨2, false⟩, ⟨3, true⟩] : List RenderResult),
            r.index = i ∧ r.success = true :=
  merged_order_independent_of_completion _ _ (List.reverse_perm _) (by decide)

/-! ## All-pages-fail run tail (C2) -/

/-- C2 counterexample: with every page failed, webtext.py's run tail exits
with status 1 and writes no artifact — but `workdirDeleted = false`: the
`exit(1)` at line 196 runs before the `shutil.rmtree` at line 214, so the
transient working directory is NOT recursively deleted, contradicting the
claim's cleanup conjunct. -/
theorem allfail_cleanup_counterexample :
    (finalizeRun (fun _ => true) [⟨1, false⟩, ⟨2, false⟩]).exitCode = 1
    ∧ (finalizeRun (fun _ => true) [⟨1, false⟩, ⟨2, false⟩]).artifact = none
    ∧ (finalizeRun (fun _ => true) [⟨1, false⟩, ⟨2, false⟩]).workdirDeleted = false := by
  decide

/-- C2 amended: when every page fails to render, the run terminates with a
fatal non-zero status and no merged artifact, and the transient working
directory is left in place (the cleanup step is unreachable on this path). -/
theorem allfail_fatal_no_artifact_no_cleanup (readable : Nat → Bool)
    (results : List RenderResult) (hfail : ∀ r ∈ results, r.success = false) :
    finalizeRun readable results
      = { exitCode := 1, artifact := none, workdirDeleted := false } := by
  have hempty : pdfFiles results = [] := by
    unfold pdfFiles
    rw [List.map_eq_nil_iff, List.filter_eq_nil_iff]
    intro r hr
    simp [hfail r hr]
  unfold finalizeRun
  simp [hempty]

/-- C2 witness: one failed page. -/
theorem allfail_witness :
    finalizeRun (fun _ => true) [⟨1, false⟩]
      = { exitCode := 1, artifact := none, workdirDeleted := false } :=
  allfail_fatal_no_artifact_no_cleanup (fun _ => true) [⟨1, false⟩] (by decide)

/-! ## Merge failure isolation (C7) -/

theorem mergeLoop_eq_filter (readable : Nat → Bool) (l acc : List Nat) :
    mergeLoop readable l acc = acc ++ l.filter readable := by
  induction l generalizing acc with
  | nil => simp [mergeLoop]
  | cons p rest ih =>
    by_cases hp : readable p
    · simp [mergeLoop, hp, ih, List.filter_cons]
    · simp [mergeLoop, hp, ih, List.filter_cons]

/-- C7 counterexample: webscraper_api.py's assembler wraps the whole append
loop in one `try`, so with documents [1, 2, 3] and document 2 unreadable the
merge aborts (`none`) instead of producing the remaining readable documents
[1, 3]. -/
theorem mergeApi_aborts_counterexample :
    mergeApi (fun p => p != 2) [1, 2, 3] ≠ some ([1, 2, 3].filter (fun p => p != 2))
    ∧ mergeApi (fun p => p != 2) [1, 2, 3] = none := by
  decide

/-- C7 amended: webtext.py's assembler (per-document `try`/`except`) skips
every unreadable document and still merges all remaining readable documents
in order; webscraper_api.py's assembler instead aborts the whole merge at the
first unreadable document. -/
theorem merge_skips_corrupt_and_continues (readable : Nat → Bool) (pdfs : List Nat)
    (_hcorrupt : ∃ p ∈ pdfs, readable p = false) :
    mergeLoop readable pdfs [] = pdfs.filter readable
    ∧ (∀ p ∈ pdfs, readable p = true → p ∈ mergeLoop readable pdfs [])
    ∧ ∀ p ∈ pdfs, readable p = false → p ∉ mergeLoop readable pdfs [] := by
  have heq : mergeLoop readable pdfs [] = pdfs.filter readable := by
    simpa using mergeLoop_eq_filter readable pdfs []
  refine ⟨heq, ?_, ?_⟩
  · intro p hp hread
    rw [heq, List.mem_filter]
    exact ⟨hp, hread⟩
  · intro p _ hread hmem
    rw [heq, List.mem_filter] at hmem
    rw [hmem.2] at hread
    exact Bool.noConfusion hread

/-- C7 witness: documents [1, 2, 3] with document 2 unreadable merge to
[1, 3]. -/
theorem merge_skips_witness :
    mergeLoop (fun p => p != 2) [1, 2, 3] [] = [1, 2, 3].filter (fun p => p != 2)
    ∧ (∀ p ∈ [1, 2, 3], (fun p : Nat => p != 2) p = true →
        p ∈ mergeLoop (fun p => p != 2) [1, 2, 3] [])
    ∧ ∀ p ∈ [1, 2, 3], (fun p : Nat => p != 2) p = false →
        p ∉ mergeLoop (fun p => p != 2) [1, 2, 3] [] :=
  merge_skips_corrupt_and_continues (fun p => p != 2) [1, 2, 3] (by decide)

/-! ## Concurrency-limit validation (C5) -/

/-- C5: a concurrency limit `k ≤ 0` makes the pool constructor fail with
`ValueError("max_workers must be greater than 0")` before any render runs:
the result is that error, it does not depend on the render function at all,
and no coerced pool (`Except.ok`) is ever produced. -/
theorem runAll_rejects_nonpositive (k : Int) (targets : List (List Char))
    (render render' : Nat → List Char → Option Nat) (hk : k ≤ 0) :
    runAll k targets render = Except.error "max_workers must be greater than 0"
    ∧ runAll k targets render = runAll k targets render'
    ∧ ∀ rs, runAll k targets render ≠ Except.ok rs := by
  simp only [runAll, if_pos hk]
  exact ⟨trivial, trivial, fun rs h => Except.noConfusion h⟩

/-- C5 witness: `k = 0` with one target is rejected identically for two
different render functions. -/
theorem runAll_rejects_witness :
    runAll 0 ["a".data] (fun _ _ => none)
        = Except.error "max_workers must be greater than 0"
    ∧ runAll 0 ["a".data] (fun _ _ => none) = runAll 0 ["a".data] (fun _ _ => some 1)
    ∧ ∀ rs, runAll 0 ["a".data] (fun _ _ => none) ≠ Except.ok rs :=
  runAll_rejects_nonpositive 0 ["a".data] (fun _ _ => none) (fun _ _ => some 1) (by decide)

/-! ## Render-worker verification step (C4) -/

/-- C4 counterexample: webtext.py's worker has no verify step — with an
engine whose export returns an empty payload, `save_page_as_pdf` writes an
empty file and still returns the path (Success), refuting the claim that
every Success has a non-empty file (the claim holds only for
webscraper_api.py's `process_page`). -/
theorem save_success_empty_file_counterexample :
    (save_page_as_pdf
        { createOk := true, navOk := true, currentUrlBlocked := false, readyOk := true,
          scriptOk := true, heights := fun _ => 0, exportPayload := some [], writeOk := true }
        1 1).map (fun ex => (ex.result, ex.written))
      = some (some 1, some []) := by
  rfl

/-- C4 amended: for webscraper_api.py's `process_page`, Success implies the
index-keyed file was written non-empty; a written-but-empty file yields
Failure (`None`), and so does a missing file.  webtext.py's
`save_page_as_pdf` performs no such verification and can return Success on an
empty file. -/
theorem process_page_verifies (e : Engine) (index : Nat) :
    ((process_page e index).result.isSome = true →
      ∃ c, (process_page e index).written = some c ∧ 0 < c.length)
    ∧ (∀ c, (process_page e index).written = some c → c.length = 0 →
        (process_page e index).result = none)
    ∧ ((process_page e index).written = none → (process_page e index).result = none) := by
  unfold process_page
  rcases hcr : e.createOk <;> rcases hn : e.navOk <;> simp [hcr, hn]
  rcases hr : e.readyOk <;> rcases hs : e.scriptOk <;> simp [hr, hs]
  rcases hp : e.exportPayload with _ | payload <;> simp
  rcases hw : e.writeOk <;> simp [hw]
  by_cases hl : 0 < payload.length <;> simp [hl]
  intro hc
  rw [hc] at hl
  simp at hl

/-- C4 witness: a one-byte payload yields Success with a non-empty file. -/
theorem process_page_verifies_witness :
    ∃ c,
      (process_page
          { createOk := true, navOk := true, currentUrlBlocked := false, readyOk := true,
            scriptOk := true, heights := fun _ => 0, exportPayload := some [1],
            writeOk := true } 1).written = some c ∧ 0 < c.length :=
  (process_page_verifies
      { createOk := true, navOk := true, currentUrlBlocked := false, readyOk := true,
        scriptOk := true, heights := fun _ => 0, exportPayload := some [1],
        writeOk := true } 1).1 (by rfl)

/-! ## Session teardown (C8) -/

/-- C8 counterexample: in webscraper_api.py's `process_page`, a navigation
failure (`driver.get` raising) lands in the outer `except`, which returns
`None` without `driver.quit()` — the invocation exits with its session still
live, refuting the every-exit-path teardown claim. -/
theorem session_leak_counterexample :
    (process_page
        { createOk := true, navOk := false, currentUrlBlocked := false, readyOk := true,
          scriptOk := true, heights := fun _ => 0, exportPayload := some [1],
          writeOk := true } 1).sessionLive = true := by
  rfl

/-- C8 amended: webtext.py's `save_page_as_pdf` tears its session down on
every exit path (the `finally: driver.quit()`); webscraper_api.py's
`process_page` tears down on every path except when an exception reaches the
outer `except` (session creation or navigation failure). -/
theorem session_teardown (e : Engine) :
    (∀ fuel i ex, save_page_as_pdf e fuel i = some ex → ex.sessionLive = false)
    ∧ ∀ i, e.createOk = true → e.navOk = true → (process_page e i).sessionLive = false := by
  constructor
  · intro fuel i ex hex
    unfold save_page_as_pdf at hex
    repeat' split at hex
    all_goals simp_all
    all_goals simp [← hex]
  · intro i h1 h2
    unfold process_page
    rw [if_neg (by simp [h1]), if_neg (by simp [h2])]
    repeat' split
    all_goals rfl

/-- C8 witness: a fully successful invocation of each worker exits with the
session torn down. -/
theorem session_teardown_witness :
    WorkerExit.sessionLive
        { result := some 1, sessionLive := false, written := some [1], raised := false } = false
    ∧ (process_page
        { createOk := true, navOk := true, currentUrlBlocked := false, readyOk := true,
          scriptOk := true, heights := fun _ => 0, exportPayload := some [1],
          writeOk := true } 1).sessionLive = false :=
  ⟨(session_teardown
      { createOk := true, navOk := true, currentUrlBlocked := false, readyOk := true,
        scriptOk := true, heights := fun _ => 0, exportPayload := some [1],
        writeOk := true }).1 1 1 _ rfl,
   (session_teardown
      { createOk := true, navOk := true, currentUrlBlocked := false, readyOk := true,
        scriptOk := true, heights := fun _ => 0, exportPayload := some [1],
        writeOk := true }).2 1 rfl rfl⟩

/-! ## Link collector (C3, C9) -/

theorem classify_kept_iff (bd u : List Char) :
    classify bd u = .kept ↔
      "http".data.isPrefixOf u = true ∧ same_domain bd u = true
        ∧ is_blocked_domain u = false := by
  unfold classify
  by_cases h1 : "http".data.isPrefixOf u <;>
    by_cases h2 : same_domain bd u <;>
      by_cases h3 : is_blocked_domain u <;>
        simp [h1, h2, h3]

theorem mem_collectLinks (bd : List Char) (urls : List (List Char)) (u : List Char) :
    u ∈ collectLinks bd urls ↔ keepLink bd u = true ∧ ∃ v ∈ urls, clean_url v = u := by
  unfold collectLinks
  rw [(List.perm_insertionSort urlLe _).mem_iff, List.mem_dedup, List.mem_filter,
    List.mem_map]
  constructor
  · rintro ⟨⟨v, hv, rfl⟩, hk⟩
    exact ⟨hk, v, hv, rfl⟩
  · rintro ⟨hk, v, hv, rfl⟩
    exact ⟨⟨v, hv, rfl⟩, hk⟩

theorem assignIndices_getElem? (l : List (List Char)) (i : Nat) :
    (assignIndices l)[i]? = (l[i]?).map (fun u => (i + 1, u)) := by
  unfold assignIndices
  rw [List.getElem?_map, List.getElem?_enum]
  cases l[i]? <;> rfl

/-- C3: the collector output is duplicate-free, sorted in the lexicographic
string order, every retained URL is a normalization of some input URL whose
host equals the seed host and contains no blocked-domain substring,
conversely every input URL whose normalization passes the http, exact-host
and blocked-substring filters does appear in the output (each normalized URL
is returned exactly once), and the index assigned at position `i` of that
order is `i + 1`. -/
theorem collect_links_spec (bd : List Char) (urls : List (List Char)) :
    (collectLinks bd urls).Nodup
    ∧ List.Sorted urlLe (collectLinks bd urls)
    ∧ (∀ u ∈ collectLinks bd urls,
        same_domain bd u = true ∧ is_blocked_domain u = false
          ∧ ∃ v ∈ urls, clean_url v = u)
    ∧ (∀ v ∈ urls, "http".data.isPrefixOf (clean_url v) = true →
        same_domain bd (clean_url v) = true → is_blocked_domain (clean_url v) = false →
        clean_url v ∈ collectLinks bd urls)
    ∧ ∀ i : Nat, (assignIndices (collectLinks bd urls))[i]?
        = ((collectLinks bd urls)[i]?).map (fun u => (i + 1, u)) := by
  refine ⟨?_, ?_, ?_, ?_, fun i => assignIndices_getElem? _ i⟩
  · exact ((List.perm_insertionSort urlLe _).nodup_iff).mpr (List.nodup_dedup _)
  · exact List.sorted_insertionSort urlLe _
  · intro u hu
    rcases (mem_collectLinks bd urls u).mp hu with ⟨hk, v, hv, rfl⟩
    have hkept : classify bd (clean_url v) = .kept := of_decide_eq_true hk
    rcases (classify_kept_iff bd (clean_url v)).mp hkept with ⟨_, h2, h3⟩
    exact ⟨h2, h3, v, hv, rfl⟩
  · intro v hv h1 h2 h3
    apply (mem_collectLinks bd urls (clean_url v)).mpr
    refine ⟨decide_eq_true ?_, v, hv, rfl⟩
    exact (classify_kept_iff bd (clean_url v)).mpr ⟨h1, h2, h3⟩

/-- C3 witness: a concrete seed domain and link list. -/
theorem collect_links_spec_witness :
    (collectLinks "example.com".data
        ["http://example.com/a?x=1".data, "http://example.com/a/".data,
         "http://example.com/b".data, "http://other.org/c".data]).Nodup
    ∧ List.Sorted urlLe (collectLinks "example.com".data
        ["http://example.com/a?x=1".data, "http://example.com/a/".data,
         "http://example.com/b".data, "http://other.org/c".data])
    ∧ (∀ u ∈ collectLinks "example.com".data
        ["http://example.com/a?x=1".data, "http://example.com/a/".data,
         "http://example.com/b".data, "http://other.org/c".data],
        same_domain "example.com".data u = true ∧ is_blocked_domain u = false
          ∧ ∃ v ∈ ["http://example.com/a?x=1".data, "http://example.com/a/".data,
              "http://example.com/b".data, "http://other.org/c".data], clean_url v = u)
    ∧ (∀ v ∈ ["http://example.com/a?x=1".data, "http://example.com/a/".data,
          "http://example.com/b".data, "http://other.org/c".data],
        "http".data.isPrefixOf (clean_url v) = true →
        same_domain "example.com".data (clean_url v) = true →
        is_blocked_domain (clean_url v) = false →
        clean_url v ∈ collectLinks "example.com".data
          ["http://example.com/a?x=1".data, "http://example.com/a/".data,
           "http://example.com/b".data, "http://other.org/c".data])
    ∧ ∀ i : Nat,
        (assignIndices (collectLinks "example.com".data
          ["http://example.com/a?x=1".data, "http://example.com/a/".data,
           "http://example.com/b".data, "http://other.org/c".data]))[i]?
        = ((collectLinks "example.com".data
            ["http://example.com/a?x=1".data, "http://example.com/a/".data,
             "http://example.com/b".data, "http://other.org/c".data])[i]?).map
            (fun u => (i + 1, u)) :=
  collect_links_spec "example.com".data
    ["http://example.com/a?x=1".data, "http://example.com/a/".data,
     "http://example.com/b".data, "http://other.org/c".data]

/-- C9: every collected URL starts with "http", and a candidate whose
normalization does not is classified `nonHttp` (not `blocked`, not a
failure) and its presence in the input leaves the collector output
unchanged. -/
theorem nonhttp_silently_excluded (bd : List Char) (urls : List (List Char)) :
    (∀ u ∈ collectLinks bd urls, "http".data.isPrefixOf u = true)
    ∧ ∀ v, "http".data.isPrefixOf (clean_url v) = false →
        classify bd (clean_url v) = .nonHttp
        ∧ collectLinks bd (v :: urls) = collectLinks bd urls := by
  constructor
  · intro u hu
    rcases (mem_collectLinks bd urls u).mp hu with ⟨hk, _, _, rfl⟩
    have hkept := of_decide_eq_true hk
    exact ((classify_kept_iff bd _).mp hkept).1
  · intro v hv
    have hclass : classify bd (clean_url v) = .nonHttp := by
      unfold classify
      rw [if_pos (by simp [hv])]
    have hk : keepLink bd (clean_url v) = false := by
      simp [keepLink, hclass]
    refine ⟨hclass, ?_⟩
    unfold collectLinks
    rw [List.map_cons, List.filter_cons_of_neg (by simp [hk])]

/-- C9 witness: a mailto link is silently dropped from a concrete
collection. -/
theorem nonhttp_silently_excluded_witness :
    (∀ u ∈ collectLinks "example.com".data ["http://example.com/a".data],
        "http".data.isPrefixOf u = true)
    ∧ ∀ v, "http".data.isPrefixOf (clean_url v) = false →
        classify "example.com".data (clean_url v) = .nonHttp
        ∧ collectLinks "example.com".data (v :: ["http://example.com/a".data])
            = collectLinks "example.com".data ["http://example.com/a".data] :=
  nonhttp_silently_excluded "example.com".data ["http://example.com/a".data]

end WebPdfScraper
